import Mathlib

/-!
Verification development for the pydexdump DEX parser
(src/dexdump/__init__.py and src/dexdump/parsing.py).

The Python source is embedded shallowly:

* `ByteStream` is a pair of an immutable byte list and a cursor position;
  the primitive decoders (`read_byte`, `read_bytes`, `read_leb128`,
  `read_string`) are translated line by line from `dexdump/__init__.py`.
* Python exceptions are values of `PyError`: `dexFormat` stands for the
  `DexFormatException` class defined in `dexdump/parsing.py`, and `generic`
  stands for every other exception the interpreter can raise
  (bare `Exception`, `IndexError`, `AttributeError`, `TypeError`).
* Strings are byte lists (`List Nat`); the source decodes with latin-1,
  which is the identity on byte values, so list equality is string equality.
-/

deriving instance DecidableEq for Except

/-- Python exception values: `dexFormat` models `DexFormatException`,
`generic` models every other raised exception. -/
inductive PyError where
  | dexFormat (msg : String)
  | generic (msg : String)
deriving DecidableEq

/-- Model of `ByteStream` (dexdump/__init__.py): an immutable byte buffer
plus the mutable file position. -/
structure ByteStream where
  data : List Nat
  pos : Nat
deriving DecidableEq

/-- Bytes of a Lean string literal, used to write descriptor byte lists
readably; descriptors in DEX files are 7-bit ASCII. -/
def strBytes (s : String) : List Nat :=
  s.data.map (fun c => c.toNat)

/-- `ByteStream.read_byte`: reads one byte, raising `IndexError` at end of
input (source: `self._file.read(1)[0]`). -/
def read_byte (bs : ByteStream) : Except PyError (Nat × ByteStream) :=
  match bs.data.get? bs.pos with
  | some b => .ok (b, ⟨bs.data, bs.pos + 1⟩)
  | none => .error (.generic "IndexError: index out of range")

/-- `ByteStream.read_bytes`: `bytes(self._file.read(byte_count))`; a short
read past end of file returns fewer bytes, as in Python. -/
def read_bytes (bs : ByteStream) (byte_count : Nat) : List Nat × ByteStream :=
  let bytesRead := (bs.data.drop bs.pos).take byte_count
  (bytesRead, ⟨bs.data, bs.pos + bytesRead.length⟩)

/-- Loop body of `ByteStream.read_leb128`.  The source loops accumulating
`result |= (current & 0x7f) << shift` and, on a continuation bit, does
`shift += 7` and raises a bare `Exception` when `shift >= 35`.  The `fuel`
argument only makes the recursion structural: with `fuel = 5` (the maximal
number of byte reads the `shift >= 35` check permits) the `fuel = 0`
branch is unreachable. -/
def read_leb128_go : ByteStream → Nat → Nat → Nat → Except PyError (Nat × ByteStream)
  | bs, result, shift, fuel =>
    match read_byte bs with
    | .error e => .error e
    | .ok (current, bs') =>
      let result' := result ||| ((current &&& 0x7f) <<< shift)
      if current &&& 0x80 == 0 then
        .ok (result', bs')
      else if 35 ≤ shift + 7 then
        .error (.generic "LEB128 sequence invalid")
      else
        match fuel with
        | 0 => .error (.generic "LEB128 sequence invalid")
        | fuel' + 1 => read_leb128_go bs' result' (shift + 7) fuel'

/-- `ByteStream.read_leb128` (dexdump/__init__.py, lines 43-54). -/
def read_leb128 (bs : ByteStream) : Except PyError (Nat × ByteStream) :=
  read_leb128_go bs 0 0 5

/-- The standard unsigned-LEB128 value of a byte sequence: 7 payload bits
per byte, least significant first. -/
def leb128_value : List Nat → Nat
  | [] => 0
  | b :: rest => b % 128 + 128 * leb128_value rest

/-- Chunk loop of `ByteStream.read_string`: the source reads 128 bytes,
splits at the first NUL (`split(chr(0))[0]`), and reads another chunk only
when a full chunk contained no NUL.  `fuel` makes the recursion structural;
any `fuel` with `remaining.length ≤ 128 * (fuel + 1)` gives the loop
semantics (the `fuel = 0` fallthrough then coincides with the loop end). -/
def read_string_go : List Nat → Nat → List Nat
  | remaining, fuel =>
    let byte_data := remaining.take 128
    if byte_data.isEmpty then []
    else
      let delta := byte_data.takeWhile (fun b => b != 0)
      if byte_data.length == 128 && delta.length == 128 then
        match fuel with
        | 0 => delta
        | fuel' + 1 => delta ++ read_string_go (remaining.drop 128) fuel'
      else delta

/-- `ByteStream.read_string` (dexdump/__init__.py, lines 59-73): remembers
`pos`, accumulates chunks up to the first NUL, then seeks to
`pos + len(result)` and returns the accumulated bytes. -/
def read_string (bs : ByteStream) : List Nat × ByteStream :=
  let result := read_string_go (bs.data.drop bs.pos) bs.data.length
  (result, ⟨bs.data, bs.pos + result.length⟩)

/-- Python list indexing `l[i]` for a possibly negative (signed 32-bit
header field) index; `none` is an `IndexError`. -/
def pyIndex {α : Type} (l : List α) (i : Int) : Option α :=
  if 0 ≤ i then l.get? i.toNat
  else if (-i) ≤ (l.length : Int) then l.get? (l.length - (-i).toNat)
  else none

/-- Python list indexing in the `Except` monad. -/
def pyIndexE {α : Type} (l : List α) (i : Int) : Except PyError α :=
  match pyIndex l i with
  | some a => .ok a
  | none => .error (.generic "IndexError: list index out of range")

/-- `DexParser.StringIdItem`: one `read_int` (signed little-endian u32
read as i32, as everywhere in the source). -/
structure StringIdItem where
  data_offset : Int
deriving DecidableEq

/-- `DexParser.TypeIdItem`. -/
structure TypeIdItem where
  descriptor_index : Int
deriving DecidableEq

/-- `DexParser.MethodIdItem`: two `read_short`, one `read_int`. -/
structure MethodIdItem where
  class_index : Int
  proto_index : Int
  name_index : Int
deriving DecidableEq

/-- `DexParser.ClassDefItem`: eight `read_ints`. -/
structure ClassDefItem where
  class_index : Int
  access_flags : Int
  super_class_index : Int
  interfaces_offset : Int
  source_file_index : Int
  annotations_offset : Int
  class_data_offset : Int
  static_values_offset : Int
deriving DecidableEq

/-- `DexParser.Annotation` record (renamed to satisfy the kernel checker):
a pair `(index, annotations_offset)` of `read_ints`. -/
structure AnnotationRec where
  index : Int
  annotations_offset : Int
deriving DecidableEq

/-- `DexParser.EncodedAnnotation` (renamed): LEB128 `type_index` and
`size`.  The `size` annotation elements are decoded by the source but
never consulted by the queries, so they are not carried here. -/
structure EncodedAnnotationItem where
  type_index : Nat
  size : Nat
deriving DecidableEq

/-- `DexParser.AnnotationItem`: a visibility byte and an encoded
annotation record. -/
structure AnnotationItem where
  visibility : Nat
  encoded_annotation_item : EncodedAnnotationItem
deriving DecidableEq

/-- `DexParser.AnnotationSetItem`: a u32 size followed by that many
`AnnotationOffsetItem` records, kept as their `_annotation_offset`
fields. -/
structure AnnotationSetItem where
  entries : List Int
deriving DecidableEq

/-- `DexParser.AnnotationsDirectoryItem`: four u32s and the method
annotation records.  The field and parameter annotation lists are decoded
by the source but never consulted by the queries. -/
structure AnnotationsDirectoryItem where
  class_annotations_offset : Int
  field_size : Int
  annotated_method_size : Int
  annotated_parameter_size : Int
  method_annotations : List AnnotationRec
deriving DecidableEq

/-- `DexParser.EncodedMethod`: three LEB128 values (`index_diff`,
`access_flags`, `code_offset`). -/
structure EncodedMethodRec where
  index_diff : Nat
  access_flags : Nat
  code_offset : Nat
deriving DecidableEq

/-- `DexParser.ClassDefData`: the virtual method list (the only part the
queries read; the field lists and direct methods are decoded but unused
by `find_method_names`). -/
structure ClassDefData where
  virtual_methods : List EncodedMethodRec
deriving DecidableEq

/-- State of a constructed `DexParser`: the raw file bytes, the loaded id
tables, and the variable-length records reachable by offset.  The four
offset maps stand for `bytestream.parse_items(1, offset, clazz)[0]` with
the record byte decoding abstracted to its decoded value (each decoder is
a pure function of the bytes at that offset). -/
structure DexParser where
  data : List Nat
  string_ids : List StringIdItem
  type_ids : List TypeIdItem
  method_ids : List MethodIdItem
  class_defs : List ClassDefItem
  class_data_items : Int → Option ClassDefData
  annotations_directories : Int → Option AnnotationsDirectoryItem
  annotation_sets : Int → Option AnnotationSetItem
  annotation_items_at : Int → Option AnnotationItem

/-- `bytestream.parse_items(1, offset, clazz)[0]` for a variable-length
record: decode the record found at the given offset, or fail as the byte
decoders would on malformed input. -/
def parse_item_at {α : Type} (f : Int → Option α) (offset : Int) : Except PyError α :=
  match f offset with
  | some a => .ok a
  | none => .error (.generic "failed to decode item at offset")

/-- `ByteStream.parse_descriptor`: seek to `string_id.data_offset`, read
past the unused LEB128 utf16 length, then `read_string`. -/
def parse_descriptor (data : List Nat) (string_id : StringIdItem) : Except PyError (List Nat) :=
  if string_id.data_offset < 0 then .error (.generic "negative seek")
  else
    match read_leb128 ⟨data, string_id.data_offset.toNat⟩ with
    | .error e => .error e
    | .ok (_, bs) => .ok (read_string bs).1

/-- `ByteStream.parse_method_name`: resolve the method simple name via
`string_ids[method_id.name_index]`. -/
def parse_method_name (p : DexParser) (method_id : MethodIdItem) : Except PyError (List Nat) :=
  match pyIndexE p.string_ids method_id.name_index with
  | .error e => .error e
  | .ok string_id => parse_descriptor p.data string_id

/-- `ClassDefItem.descriptor` property: resolve the descriptor of the
class itself via `type_ids[class_index]` and `string_ids[descriptor_index]`
(caching is semantically invisible here). -/
def class_descriptor (p : DexParser) (c : ClassDefItem) : Except PyError (List Nat) :=
  match pyIndexE p.type_ids c.class_index with
  | .error e => .error e
  | .ok type_id =>
    match pyIndexE p.string_ids type_id.descriptor_index with
    | .error e => .error e
    | .ok string_id => parse_descriptor p.data string_id

/-- `ClassDefItem.super_descriptor` (with `super_type`): resolve the
descriptor of the superclass.  Callers guard `super_class_index < 0`. -/
def super_descriptor (p : DexParser) (c : ClassDefItem) : Except PyError (List Nat) :=
  match pyIndexE p.type_ids c.super_class_index with
  | .error e => .error e
  | .ok type_id =>
    match pyIndexE p.string_ids type_id.descriptor_index with
    | .error e => .error e
    | .ok string_id => parse_descriptor p.data string_id

/-- `ClassDefItem.has_direct_super_class`: `False` when
`super_class_index < 0`, else membership of the superclass descriptor in
the given descriptor collection. -/
def has_direct_super_class (p : DexParser) (c : ClassDefItem) (descriptors : List (List Nat)) :
    Except PyError Bool :=
  if c.super_class_index < 0 then .ok false
  else
    match super_descriptor p c with
    | .error e => .error e
    | .ok desc => .ok (decide (desc ∈ descriptors))

/-- Evaluate a Python list comprehension filter left to right, propagating
the first raised exception. -/
def filterE {α : Type} (f : α → Except PyError Bool) : List α → Except PyError (List α)
  | [] => .ok []
  | x :: xs =>
    match f x with
    | .error e => .error e
    | .ok b =>
      match filterE f xs with
      | .error e => .error e
      | .ok rest => .ok (if b then x :: rest else rest)

/-- Evaluate a Python list comprehension map left to right. -/
def mapE {α β : Type} (f : α → Except PyError β) : List α → Except PyError (List β)
  | [] => .ok []
  | x :: xs =>
    match f x with
    | .error e => .error e
    | .ok y =>
      match mapE f xs with
      | .error e => .error e
      | .ok rest => .ok (y :: rest)

/-- Evaluate a Python accumulation loop `acc += f(x)` left to right. -/
def concatMapE {α β : Type} (f : α → Except PyError (List β)) : List α → Except PyError (List β)
  | [] => .ok []
  | x :: xs =>
    match f x with
    | .error e => .error e
    | .ok ys =>
      match concatMapE f xs with
      | .error e => .error e
      | .ok rest => .ok (ys ++ rest)

/-- `DexParser.find_classes_directly_inherited_from` (parsing.py, lines
417-428).  `fixed_set = set(descriptors)` is computed once before the
loop, so matching consults only the caller's original descriptors; the
loop then appends each matched class's own descriptor to the caller's
(mutable) `descriptors` list, returned here as the second component. -/
def find_classes_directly_inherited_from (p : DexParser) (descriptors : List (List Nat)) :
    Except PyError (List ClassDefItem × List (List Nat)) :=
  let fixed_set := descriptors
  match filterE (fun c => has_direct_super_class p c fixed_set) p.class_defs with
  | .error e => .error e
  | .ok matching_classes =>
    match mapE (fun c => class_descriptor p c) matching_classes with
    | .error e => .error e
    | .ok appended => .ok (matching_classes, descriptors ++ appended)

/-- `EncodedMethod.method_name`: `method_ids[self._index_diff]` is indexed
with the raw `index_diff` value (not a cumulative sum). -/
def encoded_method_name (p : DexParser) (m : EncodedMethodRec) : Except PyError (List Nat) :=
  match pyIndexE p.method_ids (Int.ofNat m.index_diff) with
  | .error e => .error e
  | .ok method_id => parse_method_name p method_id

/-- `DexParser.find_method_names` (parsing.py, lines 430-435): decode the
`ClassDefData` at `class_data_offset` (unconditionally, even when the
offset is zero) and resolve each virtual method name. -/
def find_method_names (p : DexParser) (class_def : ClassDefItem) : Except PyError (List (List Nat)) :=
  match parse_item_at p.class_data_items class_def.class_data_offset with
  | .error e => .error e
  | .ok class_data => mapE (fun m => encoded_method_name p m) class_data.virtual_methods

/-- `DexParser._reformat`: `name.rsplit('.', 1)` joined with `#`, i.e. the
last `.` (byte 46) becomes `#` (byte 35); names without a dot are
unchanged. -/
def _reformat (name : List Nat) : List Nat :=
  if 46 ∈ name then
    let i := name.length - 1 - (name.reverse.indexOf 46)
    name.take i ++ 35 :: name.drop (i + 1)
  else name

/-- Modelled from the spec: the module `dexdump/junit3.py` providing
`Junit3Processor.DEFAULT_DESCRIPTORS` is not part of the two source
files.  The spec describes the built-in set as
`{"Landroid/test/InstrumentationTestCase;", "Ljunit/framework/TestCase;",
"Landroid/test/ActivityInstrumentationTestCase2;", ...}` (a configuration
input).  `find_junit3_tests` makes `list(...)` of it once, at function
definition time, as its default argument. -/
def DEFAULT_DESCRIPTORS : List (List Nat) :=
  [strBytes "Landroid/test/InstrumentationTestCase;",
   strBytes "Ljunit/framework/TestCase;",
   strBytes "Landroid/test/ActivityInstrumentationTestCase2;"]

/-- `DexParser.find_junit3_tests` (parsing.py, lines 445-452) as a
function of the descriptor list it receives.  A call without an explicit
argument receives the (shared, previously mutated) default list; the
returned second component is that list after this call's appends, which
is what a later default call will see.  The first component is the
`method_names` list; the source wraps it in `set(...)`, so theorems
compare it by membership. -/
def find_junit3_tests (p : DexParser) (descriptors : List (List Nat)) :
    Except PyError (List (List Nat) × List (List Nat)) :=
  match find_classes_directly_inherited_from p descriptors with
  | .error e => .error e
  | .ok (test_classes, descriptors') =>
    match concatMapE (fun class_def =>
        match find_method_names p class_def with
        | .error e => .error e
        | .ok names =>
          .ok ((names.filter (fun m => (strBytes "test").isPrefixOf m)).map _reformat))
      test_classes with
    | .error e => .error e
    | .ok method_names => .ok (method_names, descriptors')

/-- Python substring test `needle in hay` on byte strings. -/
def py_str_in (needle : List Nat) : List Nat → Bool
  | [] => needle.isEmpty
  | b :: rest => needle.isPrefixOf (b :: rest) || py_str_in needle rest

/-- Inner loop of `AnnotationsDirectoryItem.get_methods_with_annotation`
(renamed; parsing.py, lines 194-204): walk the annotation item offsets of
one set; on the first item whose resolved type descriptor equals the
current value of the function-level variable `descriptor`, the source
resolves the method name, REBINDS `descriptor` to that name, appends
`_reformat(name)` to the results and breaks.  Returns the (possibly
rebound) `descriptor` and the appended element, if any. -/
def gmwa_inner (p : DexParser) (offsets : List Int) (descriptor : List Nat) (ann_index : Int) :
    Except PyError (List Nat × Option (List Nat)) :=
  match offsets with
  | [] => .ok (descriptor, none)
  | offset :: rest =>
    match parse_item_at p.annotation_items_at offset with
    | .error e => .error e
    | .ok item =>
      match pyIndexE p.type_ids (Int.ofNat item.encoded_annotation_item.type_index) with
      | .error e => .error e
      | .ok type_id =>
        match pyIndexE p.string_ids type_id.descriptor_index with
        | .error e => .error e
        | .ok string_id =>
          match parse_descriptor p.data string_id with
          | .error e => .error e
          | .ok my_descriptor =>
            if descriptor = my_descriptor then
              match pyIndexE p.method_ids ann_index with
              | .error e => .error e
              | .ok method_id =>
                match parse_method_name p method_id with
                | .error e => .error e
                | .ok name => .ok (name, some (_reformat name))
            else gmwa_inner p rest descriptor ann_index

/-- Outer loop of `get_methods_with_annotation` (renamed) over the method
annotation records; records with `annotations_offset == 0` are skipped. -/
def gmwa_loop (p : DexParser) (anns : List AnnotationRec) (descriptor : List Nat)
    (results : List (List Nat)) : Except PyError (List (List Nat)) :=
  match anns with
  | [] => .ok results
  | ann :: rest =>
    if ann.annotations_offset == 0 then gmwa_loop p rest descriptor results
    else
      match parse_item_at p.annotation_sets ann.annotations_offset with
      | .error e => .error e
      | .ok set_item =>
        match gmwa_inner p set_item.entries descriptor ann.index with
        | .error e => .error e
        | .ok (descriptor', appended) =>
          match appended with
          | some r => gmwa_loop p rest descriptor' (results ++ [r])
          | none => gmwa_loop p rest descriptor' results

/-- `AnnotationsDirectoryItem.get_methods_with_annotation` (renamed;
parsing.py, lines 186-205).  The source returns `set(results)`; the list
is kept and compared by membership. -/
def get_methods_with_annot (p : DexParser) (dir : AnnotationsDirectoryItem)
    (descriptor : List Nat) : Except PyError (List (List Nat)) :=
  gmwa_loop p dir.method_annotations descriptor []

/-- Loop of `DexParser.find_junit4_tests` (parsing.py, lines 457-465)
over the classes with a non-zero annotations offset: classes whose
descriptor does not contain the substring `linkedin`, or starts with
`Landroid` or `Ljava`, are skipped by a `continue`. -/
def find_junit4_loop (p : DexParser) (cdefs : List ClassDefItem) (target : List Nat) :
    Except PyError (List (List Nat)) :=
  match cdefs with
  | [] => .ok []
  | cdef :: rest =>
    match class_descriptor p cdef with
    | .error e => .error e
    | .ok descr =>
      if !(py_str_in (strBytes "linkedin") descr)
          || (strBytes "Landroid").isPrefixOf descr
          || (strBytes "Ljava").isPrefixOf descr then
        find_junit4_loop p rest target
      else
        match parse_item_at p.annotations_directories cdef.annotations_offset with
        | .error e => .error e
        | .ok dir =>
          match get_methods_with_annot p dir target with
          | .error e => .error e
          | .ok names =>
            match find_junit4_loop p rest target with
            | .error e => .error e
            | .ok rest_results => .ok (names.map _reformat ++ rest_results)

/-- `DexParser.find_junit4_tests` (parsing.py, lines 454-466).  Note the
hardcoded target descriptor is the malformed `"L/org/junit/Test;"`, with
a spurious slash after `L`.  The source returns `set(result)`; the list
is kept and compared by membership. -/
def find_junit4_tests (p : DexParser) : Except PyError (List (List Nat)) :=
  find_junit4_loop p (p.class_defs.filter (fun cdef => cdef.annotations_offset != 0))
    (strBytes "L/org/junit/Test;")

/-- The probe condition of `LazyList.__init__` (parsing.py, lines 20-29):
`not hasattr(clazz, "_size") and size` — the first-ever construction for a
record kind with a non-zero count decodes element 0 to learn the record
width.  `size_known` is whether `clazz._size` was already set (a
process-global class attribute); `o` is the stream position at entry and
`s` the byte width of one record. -/
def lazyList_probe (size_known : Bool) (size : Nat) : Bool :=
  !size_known && (size != 0)

/-- `self._start = bytestream.tell()` in `LazyList.__init__`: taken AFTER
the probe decode of element 0, so on a first-ever construction it is
`o + s` rather than `o`. -/
def lazyList_start (o s : Nat) (size_known : Bool) (size : Nat) : Nat :=
  if lazyList_probe size_known size then o + s else o

/-- The final stream position set by `LazyList.__init__`:
`bytestream.seek(bytestream.tell() + (size-1)*clazz._size)`. -/
def lazyList_final_pos (o s : Nat) (size_known : Bool) (size : Nat) : Int :=
  (lazyList_start o s size_known size : Int) + ((size : Int) - 1) * (s : Int)

/-- File offset from which `LazyList.__getitem__(i)` decodes element `i`:
`self._bytestream.seek(self._start + item * self._clazz._size)`, except
that on a probed construction element 0 was already decoded from `o`. -/
def lazyList_getitem_offset (o s : Nat) (size_known : Bool) (size : Nat) (i : Nat) : Nat :=
  if lazyList_probe size_known size && (i == 0) then o
  else lazyList_start o s size_known size + i * s

/-- The `FORMAT` class attribute of `DexParser.StringIdItem`
(parsing.py, line 370). -/
def StringIdItem_FORMAT : Option String :=
  some "i"

/-- `Item.get` (parsing.py, lines 129-134): when the record class has a
`FORMAT` attribute the source evaluates `struct.iter_unpack()`, which
raises (`struct` has no such attribute under Python 2; under Python 3 the
call lacks its required arguments).  Otherwise a `LazyList` is built and
its start position returned here. -/
def Item_get (fmt : Option String) (o s : Nat) (size_known : Bool) (size : Nat) :
    Except PyError Nat :=
  if fmt.isSome then .error (.generic "module struct has no attribute iter_unpack")
  else .ok (lazyList_start o s size_known size)

/-- The sixteen `VALUE_*` constants of `DexParser.EncodedValue`
(parsing.py, lines 309-324), as collected by the source's
`[getattr(self, name) for name in dir(self) if name.startswith("VALUE_")]`. -/
def EncodedValue_VALUES : List Nat :=
  [0x00, 0x02, 0x03, 0x04, 0x06, 0x10, 0x11, 0x17, 0x18, 0x19, 0x1A, 0x1B,
   0x1C, 0x1D, 0x1E, 0x1F]

/-- Python's boolean operator `a and b` on integers: returns `a` when `a`
is falsy (zero), else `b`.  The source computes
`value_type = arg_and_type and 0x1F` with this operator, not `&`. -/
def pyAnd (a b : Nat) : Nat :=
  if a == 0 then a else b

/-- `DexParser.EncodedValue.__init__` (parsing.py, lines 326-343): read
the header byte, split it as `value_arg = b >> 5` and
`value_type = b and 0x1F` (the Python boolean `and`), validate the type,
then read the payload.  The `VALUE_ARRAY` branch calls
`parse_items(None, None, ...)`, which raises a `TypeError`
(`range(None)`); the `VALUE_ANNOTATION` branch decodes a nested
`EncodedAnnotation` and is not carried here — both branches are
unreachable because `value_type` is always `0x00` or `0x1F` (proved
below for every header byte).  Returns the `_value` bytes read and the
resulting stream. -/
def encoded_value_init (bs : ByteStream) : Except PyError (List Nat × ByteStream) :=
  match read_byte bs with
  | .error e => .error e
  | .ok (arg_and_type, bs') =>
    let value_arg := arg_and_type >>> 5
    let value_type := pyAnd arg_and_type 0x1F
    if value_type ∉ EncodedValue_VALUES then
      .error (.generic "Value type invalid")
    else if value_type ≤ 0x1B then
      .ok (read_bytes bs' (value_arg + 1))
    else if value_type == 0x1C then
      .error (.generic "TypeError: range argument is None")
    else if value_type == 0x1D then
      .error (.generic "nested annotation branch, unreachable")
    else if value_type == 0x1E then
      .ok ([], bs')
    else
      .ok (read_bytes bs' value_arg)

/-- `DexParser.parse` (parsing.py, lines 386-401) with the external ZIP
demultiplexer abstracted: each `.dex` member is represented by the pair
of its `find_junit3_tests` and `find_junit4_tests` result lists.  The
loop accumulates `tests += list(junit3) + list(junit4)`. -/
def parse_accumulated_tests (members : List (List (List Nat) × List (List Nat))) :
    List (List Nat) :=
  members.foldl (fun acc member => acc ++ member.1 ++ member.2) []

/-- `DexParser.parse` itself: after the accumulation loop and the
`shutil.rmtree` cleanup the function body ends without a `return`
statement, so Python returns `None` — modelled as `none`. -/
def DexParser_parse (members : List (List (List Nat) × List (List Nat))) :
    Option (List (List Nat)) :=
  let tests := parse_accumulated_tests members
  none

/-- A string-data entry as laid out in a DEX file: a one-byte LEB128
utf16 length (all modelled strings are short ASCII), the payload bytes,
and the NUL terminator. -/
def strEntry (s : String) : List Nat :=
  (strBytes s).length :: (strBytes s ++ [0])

/-- File bytes of the xUnit-3 model DEX: the five string payloads laid
out consecutively (offsets 0, 28, 33, 38, 45). -/
def dexJ3_data : List Nat :=
  strEntry "Ljunit/framework/TestCase;" ++ strEntry "LB;" ++ strEntry "LC;" ++
    strEntry "testB" ++ strEntry "testC"

/-- ClassDef of model class `LB;` (directly extends
`Ljunit/framework/TestCase;`, class data at offset 500). -/
def classB : ClassDefItem :=
  ⟨1, 1, 0, 0, -1, 0, 500, 0⟩

/-- ClassDef of model class `LC;` (extends `LB;`, class data at offset
600). -/
def classC : ClassDefItem :=
  ⟨2, 1, 1, 0, -1, 0, 600, 0⟩

/-- A parser state over a DEX with an inheritance chain
`LC; <: LB; <: Ljunit/framework/TestCase;`, where `LB;` has the virtual
method `testB` (method id 0) and `LC;` the virtual method `testC`
(method id 1). -/
def dexJ3 : DexParser where
  data := dexJ3_data
  string_ids := [⟨0⟩, ⟨28⟩, ⟨33⟩, ⟨38⟩, ⟨45⟩]
  type_ids := [⟨0⟩, ⟨1⟩, ⟨2⟩]
  method_ids := [⟨1, 0, 3⟩, ⟨2, 0, 4⟩]
  class_defs := [classB, classC]
  class_data_items := fun offset =>
    if offset == 500 then some ⟨[⟨0, 1, 0⟩]⟩
    else if offset == 600 then some ⟨[⟨1, 1, 0⟩]⟩
    else none
  annotations_directories := fun _ => none
  annotation_sets := fun _ => none
  annotation_items_at := fun _ => none

/-- The descriptor list after one default-argument call of
`find_junit3_tests` on `dexJ3`: the matched class `LB;` appended its own
descriptor. -/
def dexJ3_descs_after_call1 : List (List Nat) :=
  DEFAULT_DESCRIPTORS ++ [strBytes "LB;"]

/-- File bytes of the xUnit-4 scenario DEX of the spec's seed test 6:
string payloads `Lcom/ex/FooTest;` (offset 0), `Lorg/junit/Test;`
(offset 18) and `testBaz` (offset 36). -/
def dexC1_data : List Nat :=
  strEntry "Lcom/ex/FooTest;" ++ strEntry "Lorg/junit/Test;" ++ strEntry "testBaz"

/-- Parser state for the spec's seed scenario: one class
`Lcom/ex/FooTest;` whose annotations directory (offset 100) has one
method annotation for method 0 (`testBaz`), whose annotation set
(offset 200) holds one item (offset 300) of type `Lorg/junit/Test;`. -/
def dexC1 : DexParser where
  data := dexC1_data
  string_ids := [⟨0⟩, ⟨18⟩, ⟨36⟩]
  type_ids := [⟨0⟩, ⟨1⟩]
  method_ids := [⟨0, 0, 2⟩]
  class_defs := [⟨0, 1, -1, 0, -1, 100, 0, 0⟩]
  class_data_items := fun _ => none
  annotations_directories := fun offset =>
    if offset == 100 then some ⟨0, 0, 1, 0, [⟨0, 200⟩]⟩ else none
  annotation_sets := fun offset =>
    if offset == 200 then some ⟨[300]⟩ else none
  annotation_items_at := fun offset =>
    if offset == 300 then some ⟨1, ⟨1, 0⟩⟩ else none

/-- File bytes for the descriptor-dependence experiment, vendor variant:
class `Lcom/linkedin/FooTest;` (offset 0), annotation type
`L/org/junit/Test;` (offset 24, the exact string the source compares
against), method `testBaz` (offset 43). -/
def dexC8_linkedin_data : List Nat :=
  strEntry "Lcom/linkedin/FooTest;" ++ strEntry "L/org/junit/Test;" ++ strEntry "testBaz"

/-- Parser whose only class descriptor contains the substring
`linkedin`; its annotations match the source's hardcoded target. -/
def dexC8_linkedin : DexParser where
  data := dexC8_linkedin_data
  string_ids := [⟨0⟩, ⟨24⟩, ⟨43⟩]
  type_ids := [⟨0⟩, ⟨1⟩]
  method_ids := [⟨0, 0, 2⟩]
  class_defs := [⟨0, 1, -1, 0, -1, 100, 0, 0⟩]
  class_data_items := fun _ => none
  annotations_directories := fun offset =>
    if offset == 100 then some ⟨0, 0, 1, 0, [⟨0, 200⟩]⟩ else none
  annotation_sets := fun offset =>
    if offset == 200 then some ⟨[300]⟩ else none
  annotation_items_at := fun offset =>
    if offset == 300 then some ⟨1, ⟨1, 0⟩⟩ else none

/-- File bytes for the descriptor-dependence experiment, plain variant:
identical annotations, but the class is `Lcom/ex/FooTest;` (offsets 0,
18, 37). -/
def dexC8_plain_data : List Nat :=
  strEntry "Lcom/ex/FooTest;" ++ strEntry "L/org/junit/Test;" ++ strEntry "testBaz"

/-- The same parser state as `dexC8_linkedin` except for the textual
content of the class's own descriptor. -/
def dexC8_plain : DexParser where
  data := dexC8_plain_data
  string_ids := [⟨0⟩, ⟨18⟩, ⟨37⟩]
  type_ids := [⟨0⟩, ⟨1⟩]
  method_ids := [⟨0, 0, 2⟩]
  class_defs := [⟨0, 1, -1, 0, -1, 100, 0, 0⟩]
  class_data_items := fun _ => none
  annotations_directories := fun offset =>
    if offset == 100 then some ⟨0, 0, 1, 0, [⟨0, 200⟩]⟩ else none
  annotation_sets := fun offset =>
    if offset == 200 then some ⟨[300]⟩ else none
  annotation_items_at := fun offset =>
    if offset == 300 then some ⟨1, ⟨1, 0⟩⟩ else none

lemma filterE_ok_mem {α : Type} (f : α → Except PyError Bool) :
    ∀ (l r : List α), filterE f l = .ok r → ∀ x ∈ r, x ∈ l ∧ f x = .ok true := by
  intro l
  induction l with
  | nil =>
    intro r h x hx
    simp only [filterE, Except.ok.injEq] at h
    subst h
    simp at hx
  | cons a as ih =>
    intro r h x hx
    simp only [filterE] at h
    cases hfa : f a with
    | error e => rw [hfa] at h; exact absurd h (by simp)
    | ok b =>
      rw [hfa] at h
      cases hrest : filterE f as with
      | error e => rw [hrest] at h; exact absurd h (by simp)
      | ok rest =>
        rw [hrest] at h
        simp only [Except.ok.injEq] at h
        subst h
        cases b with
        | true =>
          rcases List.mem_cons.mp (by simpa using hx) with hxa | hxr
          · subst hxa
            exact ⟨List.mem_cons_self _ _, hfa⟩
          · rcases ih rest hrest x hxr with ⟨h1, h2⟩
            exact ⟨List.mem_cons_of_mem _ h1, h2⟩
        | false =>
          rcases ih rest hrest x (by simpa using hx) with ⟨h1, h2⟩
          exact ⟨List.mem_cons_of_mem _ h1, h2⟩

lemma filterE_ok_mem_of {α : Type} (f : α → Except PyError Bool) :
    ∀ (l r : List α), filterE f l = .ok r → ∀ x ∈ l, f x = .ok true → x ∈ r := by
  intro l
  induction l with
  | nil =>
    intro r h x hx
    simp at hx
  | cons a as ih =>
    intro r h x hx hfx
    simp only [filterE] at h
    cases hfa : f a with
    | error e => rw [hfa] at h; exact absurd h (by simp)
    | ok b =>
      rw [hfa] at h
      cases hrest : filterE f as with
      | error e => rw [hrest] at h; exact absurd h (by simp)
      | ok rest =>
        rw [hrest] at h
        simp only [Except.ok.injEq] at h
        subst h
        rcases List.mem_cons.mp hx with hxa | hxas
        · subst hxa
          rw [hfx] at hfa
          cases hfa
          simp
        · have := ih rest hrest x hxas hfx
          cases b with
          | true => exact List.mem_cons_of_mem _ this
          | false => exact this

lemma concatMapE_ok_mem {α β : Type} (f : α → Except PyError (List β)) :
    ∀ (l : List α) (r : List β), concatMapE f l = .ok r →
      ∀ x ∈ r, ∃ c, c ∈ l ∧ ∃ ys, f c = .ok ys ∧ x ∈ ys := by
  intro l
  induction l with
  | nil =>
    intro r h x hx
    simp only [concatMapE, Except.ok.injEq] at h
    subst h
    simp at hx
  | cons a as ih =>
    intro r h x hx
    simp only [concatMapE] at h
    cases hfa : f a with
    | error e => rw [hfa] at h; exact absurd h (by simp)
    | ok ys =>
      rw [hfa] at h
      cases hrest : concatMapE f as with
      | error e => rw [hrest] at h; exact absurd h (by simp)
      | ok rest =>
        rw [hrest] at h
        simp only [Except.ok.injEq] at h
        subst h
        rcases List.mem_append.mp hx with hys | hrs
        · exact ⟨a, List.mem_cons_self _ _, ys, hfa, hys⟩
        · rcases ih rest hrest x hrs with ⟨c, hc, ys', hfc, hxy⟩
          exact ⟨c, List.mem_cons_of_mem _ hc, ys', hfc, hxy⟩

lemma concatMapE_ok_mem_of {α β : Type} (f : α → Except PyError (List β)) :
    ∀ (l : List α) (r : List β) (c : α) (ys : List β) (x : β),
      concatMapE f l = .ok r → c ∈ l → f c = .ok ys → x ∈ ys → x ∈ r := by
  intro l
  induction l with
  | nil =>
    intro r c ys x h hc
    simp at hc
  | cons a as ih =>
    intro r c ys x h hc hfc hxy
    simp only [concatMapE] at h
    cases hfa : f a with
    | error e => rw [hfa] at h; exact absurd h (by simp)
    | ok ays =>
      rw [hfa] at h
      cases hrest : concatMapE f as with
      | error e => rw [hrest] at h; exact absurd h (by simp)
      | ok rest =>
        rw [hrest] at h
        simp only [Except.ok.injEq] at h
        subst h
        rcases List.mem_cons.mp hc with hca | hcas
        · subst hca
          rw [hfc] at hfa
          cases hfa
          exact List.mem_append_left _ hxy
        · exact List.mem_append_right _ (ih rest c ys x hrest hcas hfc hxy)

lemma find_classes_ok_elim (p : DexParser) (descriptors : List (List Nat))
    (m : List ClassDefItem) (d' : List (List Nat))
    (h : find_classes_directly_inherited_from p descriptors = .ok (m, d')) :
    filterE (fun c => has_direct_super_class p c descriptors) p.class_defs = .ok m ∧
      ∃ appended, d' = descriptors ++ appended := by
  simp only [find_classes_directly_inherited_from] at h
  cases hf : filterE (fun c => has_direct_super_class p c descriptors) p.class_defs with
  | error e => rw [hf] at h; exact absurd h (by simp)
  | ok mc =>
    rw [hf] at h
    dsimp only [] at h
    cases hm : mapE (fun c => class_descriptor p c) mc with
    | error e => rw [hm] at h; exact absurd h (by simp)
    | ok appended =>
      rw [hm] at h
      simp only [Except.ok.injEq, Prod.mk.injEq] at h
      rcases h with ⟨h1, h2⟩
      subst h1
      exact ⟨rfl, appended, h2.symm⟩

lemma find_junit3_ok_elim (p : DexParser) (descriptors : List (List Nat))
    (r d' : List (List Nat))
    (h : find_junit3_tests p descriptors = .ok (r, d')) :
    ∃ m, find_classes_directly_inherited_from p descriptors = .ok (m, d') ∧
      concatMapE (fun class_def =>
        match find_method_names p class_def with
        | .error e => .error e
        | .ok names =>
          .ok ((names.filter (fun mn => (strBytes "test").isPrefixOf mn)).map _reformat)) m =
        .ok r := by
  unfold find_junit3_tests at h
  cases hf : find_classes_directly_inherited_from p descriptors with
  | error e => rw [hf] at h; exact absurd h (by simp)
  | ok pr =>
    rw [hf] at h
    rcases pr with ⟨m, descs⟩
    dsimp only [] at h
    cases hc : concatMapE (fun class_def =>
        match find_method_names p class_def with
        | .error e => .error e
        | .ok names =>
          .ok ((names.filter (fun mn => (strBytes "test").isPrefixOf mn)).map _reformat)) m with
    | error e =>
      rw [hc] at h; exact absurd h (by simp)
    | ok method_names =>
      rw [hc] at h
      simp only [Except.ok.injEq, Prod.mk.injEq] at h
      rcases h with ⟨h1, h2⟩
      subst h1; subst h2
      exact ⟨m, rfl, hc⟩

lemma has_direct_super_class_mono (p : DexParser) (c : ClassDefItem)
    (d1 d2 : List (List Nat)) (hsub : ∀ x ∈ d1, x ∈ d2)
    (h : has_direct_super_class p c d1 = .ok true) :
    has_direct_super_class p c d2 = .ok true := by
  unfold has_direct_super_class at h ⊢
  by_cases hneg : c.super_class_index < 0
  · rw [if_pos hneg] at h
    exact absurd h (by simp)
  · rw [if_neg hneg] at h ⊢
    cases hsd : super_descriptor p c with
    | error e => rw [hsd] at h; exact absurd h (by simp)
    | ok desc =>
      rw [hsd] at h
      simp only [Except.ok.injEq, decide_eq_true_eq] at h
      simp [hsub desc h]

/-- Claim C1: on the spec's seed scenario — one class `Lcom/ex/FooTest;`
whose annotations directory leads to one annotation item of type
`Lorg/junit/Test;` on the method `testBaz` — `find_junit4_tests` returns
the empty set, not `{"com.ex.FooTest#testBaz"}`: the class is skipped
because its descriptor does not contain the substring `linkedin` (and the
hardcoded target `L/org/junit/Test;` could never match
`Lorg/junit/Test;` anyway). -/
theorem C1_scenario_returns_empty :
    find_junit4_tests dexC1 = .ok [] ∧
    strBytes "com.ex.FooTest#testBaz" ∉ ([] : List (List Nat)) := by
  decide

/-- Claim C2 (counterexample): in `dexJ3`, class `LC;` directly extends
`LB;`, and the superclass descriptor of `LB;` is
`Ljunit/framework/TestCase;`, a member of the caller's input set; yet
`find_junit3_tests` returns only `testB` — the test method `testC` of
`LC;` is missing, because the matching set is frozen before the single
pass. -/
theorem C2_counterexample :
    find_junit3_tests dexJ3 DEFAULT_DESCRIPTORS =
      .ok ([strBytes "testB"], dexJ3_descs_after_call1) ∧
    classC ∈ dexJ3.class_defs ∧
    super_descriptor dexJ3 classC = .ok (strBytes "LB;") ∧
    class_descriptor dexJ3 classB = .ok (strBytes "LB;") ∧
    super_descriptor dexJ3 classB = .ok (strBytes "Ljunit/framework/TestCase;") ∧
    strBytes "Ljunit/framework/TestCase;" ∈ DEFAULT_DESCRIPTORS ∧
    strBytes "testC" ∉ [strBytes "testB"] := by
  decide

/-- Claim C2 (amended): `find_classes_directly_inherited_from` makes a
single pass whose matching consults only the caller's original descriptor
set (`fixed_set` is computed once, before the loop): every returned class
has its direct superclass descriptor in the original set, and the appends
performed during the pass only extend the caller's list for LATER calls —
no repeated passes occur, so a class inheriting only via an intermediate
class is not returned. -/
theorem C2_single_pass_matches_initial_set (p : DexParser)
    (descriptors : List (List Nat)) (m : List ClassDefItem) (d' : List (List Nat))
    (h : find_classes_directly_inherited_from p descriptors = .ok (m, d')) :
    (∀ c ∈ m, c ∈ p.class_defs ∧ has_direct_super_class p c descriptors = .ok true) ∧
      ∃ appended, d' = descriptors ++ appended := by
  rcases find_classes_ok_elim p descriptors m d' h with ⟨hf, happ⟩
  exact ⟨fun c hc => filterE_ok_mem _ _ _ hf c hc, happ⟩

/-- Witness for the amended C2 theorem at the concrete `dexJ3`. -/
theorem C2_single_pass_matches_initial_set_witness :
    find_classes_directly_inherited_from dexJ3 DEFAULT_DESCRIPTORS =
      .ok ([classB], dexJ3_descs_after_call1) ∧
    (classB ∈ dexJ3.class_defs ∧
      has_direct_super_class dexJ3 classB DEFAULT_DESCRIPTORS = .ok true) :=
  ⟨by decide,
    (C2_single_pass_matches_initial_set dexJ3 DEFAULT_DESCRIPTORS [classB]
      dexJ3_descs_after_call1 (by decide)).1 classB (by decide)⟩

/-- Claim C3: the id tables are not decoded from `offset + i * stride`.
First, `Item.get` raises for any record class carrying a `FORMAT`
attribute (`StringIdItem` does), so a non-empty string table cannot load
at all.  Second, on the first-ever `LazyList` construction for a record
kind, `_start` is recorded AFTER the probe decode of element 0, so
element `i ≥ 1` of a table at offset 112 with stride 4 is decoded from
`112 + (i+1)*4` instead of `112 + i*4`; only later constructions (stride
already known) use the intended offsets. -/
theorem C3_lazylist_offsets :
    Item_get StringIdItem_FORMAT 112 4 false 2 =
      .error (.generic "module struct has no attribute iter_unpack") ∧
    lazyList_getitem_offset 112 4 false 2 1 = 112 + 2 * 4 ∧
    112 + 2 * 4 ≠ 112 + 1 * 4 ∧
    lazyList_getitem_offset 112 4 true 2 1 = 112 + 1 * 4 := by
  decide

/-- Claim C4: `DexParser.parse` accumulates every member's junit3 and
junit4 results into its local `tests` list but ends without a `return`
statement, so it returns `None` for every input — the union is computed
and then dropped. -/
theorem C4_parse_returns_none :
    (∀ members, DexParser_parse members = none) ∧
    parse_accumulated_tests [([strBytes "com.ex.FooTest#testBaz"], [])] =
      [strBytes "com.ex.FooTest#testBaz"] :=
  ⟨fun _ => rfl, by decide⟩

/-- Claim C6: the header byte of an `EncodedValue` is split with the
Python boolean operator `and`, not the bitwise mask: for header byte
`0x04` (VALUE_INT per the DEX format) the source computes
`value_type = 0x1F` (VALUE_BOOLEAN) rather than `0x04 = 0x04 &&& 0x1F`,
and consequently reads `value_arg = 0` payload bytes instead of the
`value_arg + 1 = 1` byte blob the claim describes. -/
theorem C6_header_uses_boolean_and :
    encoded_value_init ⟨[0x04, 0xAB], 0⟩ = .ok ([], ⟨[0x04, 0xAB], 1⟩) ∧
    pyAnd 0x04 0x1F = 0x1F ∧
    0x04 &&& 0x1F = 0x04 ∧
    (0x1F : Nat) ≠ 0x04 := by
  decide

/-- Claim C8: whether an annotated class contributes results depends on
the textual content of its own descriptor: two parser states with
identical annotation structures (directory, set and item at the same
offsets, same methods) differ in the outcome solely because one class
descriptor contains the substring `linkedin` and the other does not. -/
theorem C8_result_depends_on_class_descriptor :
    find_junit4_tests dexC8_linkedin = .ok [strBytes "testBaz"] ∧
    find_junit4_tests dexC8_plain = .ok [] ∧
    dexC8_linkedin.annotations_directories 100 = dexC8_plain.annotations_directories 100 ∧
    dexC8_linkedin.annotation_sets 200 = dexC8_plain.annotation_sets 200 ∧
    dexC8_linkedin.annotation_items_at 300 = dexC8_plain.annotation_items_at 300 ∧
    dexC8_linkedin.class_defs = dexC8_plain.class_defs := by
  decide

/-- Claim C9 (counterexample): two successive default-argument calls of
`find_junit3_tests` are NOT equal: the first call appends the matched
class descriptor `LB;` to the shared default list, and the second call —
receiving that mutated list — additionally matches `LC;` and returns
`testC`, which the first call did not. -/
theorem C9_counterexample :
    find_junit3_tests dexJ3 DEFAULT_DESCRIPTORS =
      .ok ([strBytes "testB"], dexJ3_descs_after_call1) ∧
    find_junit3_tests dexJ3 dexJ3_descs_after_call1 =
      .ok ([strBytes "testB", strBytes "testC"],
        dexJ3_descs_after_call1 ++ [strBytes "LB;", strBytes "LC;"]) ∧
    strBytes "testC" ∈ [strBytes "testB", strBytes "testC"] ∧
    strBytes "testC" ∉ [strBytes "testB"] := by
  decide

/-- Claim C9 (amended): the first default-argument call leaves state
behind — the appended descriptors in the shared default list — and the
second call therefore returns a superset of the first call's result set
(every member of the first result set is in the second). -/
theorem C9_second_call_superset (p : DexParser) (descriptors r1 d1 r2 d2 : List (List Nat))
    (h1 : find_junit3_tests p descriptors = .ok (r1, d1))
    (h2 : find_junit3_tests p d1 = .ok (r2, d2)) :
    ∀ x ∈ r1, x ∈ r2 := by
  rcases find_junit3_ok_elim p descriptors r1 d1 h1 with ⟨m1, hfc1, hcm1⟩
  rcases find_junit3_ok_elim p d1 r2 d2 h2 with ⟨m2, hfc2, hcm2⟩
  rcases find_classes_ok_elim p descriptors m1 d1 hfc1 with ⟨hfil1, app1, hd1⟩
  rcases find_classes_ok_elim p d1 m2 d2 hfc2 with ⟨hfil2, -, -⟩
  intro x hx
  rcases concatMapE_ok_mem _ m1 r1 hcm1 x hx with ⟨c, hcm, ys, hfc, hxy⟩
  rcases filterE_ok_mem _ _ _ hfil1 c hcm with ⟨hcl, htrue⟩
  have hsub : ∀ y ∈ descriptors, y ∈ d1 := by
    subst hd1
    intro y hy
    exact List.mem_append_left _ hy
  have htrue2 := has_direct_super_class_mono p c descriptors d1 hsub htrue
  have hc2 : c ∈ m2 := filterE_ok_mem_of _ _ _ hfil2 c hcl htrue2
  exact concatMapE_ok_mem_of _ m2 r2 c ys x hcm2 hc2 hfc hxy

/-- Witness for the amended C9 theorem at the concrete `dexJ3`. -/
theorem C9_second_call_superset_witness :
    find_junit3_tests dexJ3 DEFAULT_DESCRIPTORS =
      .ok ([strBytes "testB"], dexJ3_descs_after_call1) ∧
    find_junit3_tests dexJ3 dexJ3_descs_after_call1 =
      .ok ([strBytes "testB", strBytes "testC"],
        dexJ3_descs_after_call1 ++ [strBytes "LB;", strBytes "LC;"]) ∧
    strBytes "testB" ∈ [strBytes "testB", strBytes "testC"] :=
  ⟨by decide, by decide,
    C9_second_call_superset dexJ3 DEFAULT_DESCRIPTORS [strBytes "testB"]
      dexJ3_descs_after_call1 [strBytes "testB", strBytes "testC"]
      (dexJ3_descs_after_call1 ++ [strBytes "LB;", strBytes "LC;"])
      (by decide) (by decide) (strBytes "testB") (by decide)⟩

set_option maxRecDepth 8192 in
/-- Claim C10: for every possible header byte the computed `value_type`
(`arg_and_type and 0x1F`, the Python boolean operator) is a member of the
defined `VALUE_*` constant set — it is `0x00` for a zero header byte and
`0x1F` otherwise — so the `Value type invalid` branch of
`EncodedValue.__init__` is unreachable for all inputs. -/
theorem C10_value_type_always_defined :
    ∀ b : Fin 256,
      (pyAnd b.val 0x1F ∈ EncodedValue_VALUES ∧
        pyAnd b.val 0x1F = (if b.val = 0 then 0x00 else 0x1F)) ∧
      ∀ tail : List Nat,
        encoded_value_init ⟨b.val :: tail, 0⟩ ≠ .error (.generic "Value type invalid") := by
  intro b
  refine ⟨by revert b; decide, ?_⟩
  intro tail h
  by_cases hb : b.val = 0
  · rw [hb] at h
    have heq : encoded_value_init ⟨0 :: tail, 0⟩ =
        .ok (read_bytes ⟨0 :: tail, 1⟩ 1) := rfl
    rw [heq] at h
    exact Except.noConfusion h
  · rcases Nat.exists_eq_succ_of_ne_zero hb with ⟨n, hn⟩
    rw [hn] at h
    have heq : encoded_value_init ⟨(n + 1) :: tail, 0⟩ =
        .ok (read_bytes ⟨(n + 1) :: tail, 1⟩ ((n + 1) >>> 5)) := rfl
    rw [heq] at h
    exact Except.noConfusion h

lemma takeWhile_append_of_eq {p : Nat → Bool} (l₁ l₂ : List Nat)
    (h : l₁.takeWhile p = l₁) : (l₁ ++ l₂).takeWhile p = l₁ ++ l₂.takeWhile p := by
  induction l₁ with
  | nil => simp
  | cons a as ih =>
    rw [List.takeWhile_cons] at h
    cases hpa : p a with
    | false =>
      rw [hpa] at h
      exact absurd h (by simp)
    | true =>
      rw [hpa] at h
      simp only [if_true, List.cons.injEq, true_and] at h
      simp [List.takeWhile_cons, hpa, List.cons_append, ih h]

lemma takeWhile_append_of_ne {p : Nat → Bool} (l₁ l₂ : List Nat)
    (h : l₁.takeWhile p ≠ l₁) : (l₁ ++ l₂).takeWhile p = l₁.takeWhile p := by
  induction l₁ with
  | nil => exact absurd rfl h
  | cons a as ih =>
    rw [List.takeWhile_cons] at h
    cases hpa : p a with
    | false =>
      simp [List.takeWhile_cons, hpa]
    | true =>
      rw [hpa] at h
      simp only [if_true, ne_eq, List.cons.injEq, true_and] at h
      simp [List.takeWhile_cons, hpa, List.cons_append, ih h]

lemma read_string_go_eq_takeWhile :
    ∀ (fuel : Nat) (remaining : List Nat), remaining.length ≤ 128 * (fuel + 1) →
      read_string_go remaining fuel = remaining.takeWhile (fun b => b != 0) := by
  intro fuel
  induction fuel with
  | zero =>
    intro remaining hlen
    have htake : remaining.take 128 = remaining :=
      List.take_of_length_le (by omega)
    rw [read_string_go]
    simp only [htake]
    by_cases hemp : remaining.isEmpty
    · rw [if_pos hemp]
      rw [List.isEmpty_iff.mp hemp]
      rfl
    · rw [if_neg hemp]
      split
      · rfl
      · rfl
  | succ f ih =>
    intro remaining hlen
    rw [read_string_go]
    by_cases hemp : (remaining.take 128).isEmpty
    · rw [if_pos hemp]
      have : remaining = [] := by
        rcases (List.take_eq_nil_iff).mp (List.isEmpty_iff.mp hemp) with h | h
        · omega
        · exact h
      rw [this]
      rfl
    · rw [if_neg hemp]
      by_cases hcond : ((remaining.take 128).length == 128 &&
          ((remaining.take 128).takeWhile (fun b => b != 0)).length == 128) = true
      · rw [if_pos hcond]
        simp only [Bool.and_eq_true, beq_iff_eq] at hcond
        rcases hcond with ⟨hlen128, hdelta128⟩
        have hfull : (remaining.take 128).takeWhile (fun b => b != 0) = remaining.take 128 :=
          (List.takeWhile_prefix _).eq_of_length (by rw [hdelta128, hlen128])
        have hrec := ih (remaining.drop 128) (by rw [List.length_drop]; omega)
        dsimp only []
        rw [hrec]
        conv_rhs => rw [← List.take_append_drop 128 remaining]
        rw [takeWhile_append_of_eq _ _ hfull, hfull]
      · rw [if_neg hcond]
        by_cases h128 : (remaining.take 128).length = 128
        · have hdne : ((remaining.take 128).takeWhile (fun b => b != 0)).length ≠ 128 := by
            intro hc
            exact hcond (by simp [h128, hc])
          have hne : (remaining.take 128).takeWhile (fun b => b != 0) ≠ remaining.take 128 := by
            intro hc
            rw [hc, h128] at hdne
            exact hdne rfl
          conv_rhs => rw [← List.take_append_drop 128 remaining]
          rw [takeWhile_append_of_ne _ _ hne]
        · have : remaining.take 128 = remaining := by
            rw [List.length_take] at h128
            have : remaining.length ≤ 128 := by omega
            exact List.take_of_length_le (by omega)
          rw [this]

lemma get?_takeWhile_length_of_mem_zero :
    ∀ l : List Nat, 0 ∈ l →
      l.get? ((l.takeWhile (fun b => b != 0)).length) = some 0 := by
  intro l
  induction l with
  | nil => intro h; simp at h
  | cons a as ih =>
    intro h
    by_cases ha : a = 0
    · subst ha
      rw [List.takeWhile_cons]
      simp
    · have hpa : (a != 0) = true := by simpa using ha
      rw [List.takeWhile_cons, if_pos hpa]
      have has : 0 ∈ as := by
        rcases List.mem_cons.mp h with h0 | h0
        · exact absurd h0.symm ha
        · exact h0
      simpa using ih has

/-- Claim C7 (counterexample): reading the NUL-terminated payload `abc`
from stream position 0 returns the three payload bytes but leaves the
stream position at 3 — the position OF the `0x00` terminator — not one
byte past it (position 4) as claimed. -/
theorem C7_counterexample :
    read_string ⟨[97, 98, 99, 0, 120], 0⟩ = ([97, 98, 99], ⟨[97, 98, 99, 0, 120], 3⟩) ∧
    (3 : Nat) ≠ 4 := by
  decide

/-- Claim C7 (amended): `read_string` returns exactly the bytes preceding
the first `0x00` byte, but the final seek is to `pos + len(result)`, so
after the call the stream position is exactly AT the terminator (the byte
at the returned position is the `0x00`), one byte short of the claimed
position. -/
theorem C7_read_string_stops_at_terminator (bs : ByteStream)
    (h : 0 ∈ bs.data.drop bs.pos) :
    (read_string bs).1 = (bs.data.drop bs.pos).takeWhile (fun b => b != 0) ∧
    (read_string bs).2.pos = bs.pos + (read_string bs).1.length ∧
    (bs.data.drop bs.pos).get? ((read_string bs).1.length) = some 0 := by
  have hgo := read_string_go_eq_takeWhile bs.data.length (bs.data.drop bs.pos)
    (by have := List.length_drop bs.pos bs.data; omega)
  refine ⟨?_, rfl, ?_⟩
  · exact hgo
  · rw [show (read_string bs).1 = read_string_go (bs.data.drop bs.pos) bs.data.length from rfl]
    rw [hgo]
    exact get?_takeWhile_length_of_mem_zero _ h

/-- Witness for the amended C7 theorem on a concrete stream. -/
theorem C7_read_string_stops_at_terminator_witness :
    (0 ∈ ([97, 98, 99, 0, 120] : List Nat).drop 0) ∧
    ((read_string ⟨[97, 98, 99, 0, 120], 0⟩).1 =
        (([97, 98, 99, 0, 120] : List Nat).drop 0).takeWhile (fun b => b != 0) ∧
      (read_string ⟨[97, 98, 99, 0, 120], 0⟩).2.pos =
        0 + (read_string ⟨[97, 98, 99, 0, 120], 0⟩).1.length ∧
      (([97, 98, 99, 0, 120] : List Nat).drop 0).get?
        ((read_string ⟨[97, 98, 99, 0, 120], 0⟩).1.length) = some 0) :=
  ⟨by decide, C7_read_string_stops_at_terminator ⟨[97, 98, 99, 0, 120], 0⟩ (by decide)⟩

lemma get?_of_drop : ∀ (p : Nat) (data : List Nat) (b : Nat) (rest : List Nat),
    data.drop p = b :: rest → data.get? p = some b := by
  intro p
  induction p with
  | zero =>
    intro data b rest h
    rw [List.drop_zero] at h
    rw [h]
    rfl
  | succ q ih =>
    intro data b rest h
    cases data with
    | nil => simp at h
    | cons a d =>
      rw [List.drop_succ_cons] at h
      exact ih d b rest h

lemma drop_succ_of_drop : ∀ (p : Nat) (data : List Nat) (b : Nat) (rest : List Nat),
    data.drop p = b :: rest → data.drop (p + 1) = rest := by
  intro p data b rest h
  have : data.drop (p + 1) = (data.drop p).drop 1 := by
    rw [List.drop_drop]
  rw [this, h]
  rfl

lemma or_shiftLeft_eq_add (x m k : Nat) (hx : x < 2 ^ k) :
    x ||| (m <<< k) = x + m * 2 ^ k := by
  rw [Nat.shiftLeft_eq, Nat.or_comm, mul_comm m (2 ^ k), ← Nat.mul_add_lt_is_or hx m]
  omega

lemma and_127_eq_mod (b : Nat) : b &&& 127 = b % 128 := by
  have h := Nat.and_pow_two_sub_one_eq_mod b 7
  norm_num at h
  exact h

lemma read_leb128_go_spec :
    ∀ (l₀ : List Nat) (b : Nat) (rest data : List Nat) (p result shift fuel : Nat),
      data.drop p = (l₀ ++ [b]) ++ rest →
      (∀ c ∈ l₀, c &&& 0x80 ≠ 0) →
      b &&& 0x80 = 0 →
      result < 2 ^ shift →
      shift + 7 * (l₀.length + 1) ≤ 35 →
      l₀.length ≤ fuel →
      read_leb128_go ⟨data, p⟩ result shift fuel =
        .ok (result + leb128_value (l₀ ++ [b]) * 2 ^ shift,
          ⟨data, p + (l₀.length + 1)⟩) := by
  intro l₀
  induction l₀ with
  | nil =>
    intro b rest data p result shift fuel hdrop hcont hlast hres hshift hfuel
    have hb : read_byte ⟨data, p⟩ = .ok (b, ⟨data, p + 1⟩) := by
      unfold read_byte
      rw [get?_of_drop p data b rest (by simpa using hdrop)]
    rw [read_leb128_go, hb]
    dsimp only []
    rw [show (b &&& 0x80 == 0) = true from by simpa using hlast]
    rw [if_pos rfl]
    rw [or_shiftLeft_eq_add _ _ _ hres, and_127_eq_mod]
    simp [leb128_value]
  | cons c l₀' ih =>
    intro b rest data p result shift fuel hdrop hcont hlast hres hshift hfuel
    have hdropc : data.drop p = c :: ((l₀' ++ [b]) ++ rest) := by simpa using hdrop
    have hb : read_byte ⟨data, p⟩ = .ok (c, ⟨data, p + 1⟩) := by
      unfold read_byte
      rw [get?_of_drop p data c _ hdropc]
    have hc : c &&& 0x80 ≠ 0 := hcont c (List.mem_cons_self _ _)
    rw [read_leb128_go, hb]
    dsimp only []
    rw [show (c &&& 0x80 == 0) = false from by simpa using hc]
    rw [if_neg (by simp)]
    have hlen : l₀'.length + 2 ≤ 5 := by
      have := hshift
      simp only [List.length_cons] at this
      omega
    rw [if_neg (by simp only [List.length_cons] at hshift; omega)]
    rcases Nat.exists_eq_succ_of_ne_zero (show fuel ≠ 0 by
      simp only [List.length_cons] at hfuel; omega) with ⟨fuel', hf⟩
    subst hf
    have hres' : result ||| ((c &&& 0x7f) <<< shift) < 2 ^ (shift + 7) := by
      rw [or_shiftLeft_eq_add _ _ _ hres, and_127_eq_mod]
      have h1 : c % 128 ≤ 127 := by omega
      have h2 : 2 ^ (shift + 7) = 2 ^ shift * 128 := by rw [pow_add]; norm_num
      have h3 : result + c % 128 * 2 ^ shift < 2 ^ shift + 127 * 2 ^ shift := by
        have := Nat.mul_le_mul_right (2 ^ shift) h1
        omega
      have h4 : (2 : Nat) ^ shift + 127 * 2 ^ shift ≤ 2 ^ shift * 128 := by omega
      omega
    have hrec := ih b rest data (p + 1)
      (result ||| ((c &&& 0x7f) <<< shift)) (shift + 7) fuel'
      (drop_succ_of_drop p data c _ hdropc)
      (fun x hx => hcont x (List.mem_cons_of_mem _ hx)) hlast hres'
      (by simp only [List.length_cons] at hshift; omega)
      (by simp only [List.length_cons] at hfuel; omega)
    dsimp only []
    rw [hrec]
    rw [or_shiftLeft_eq_add _ _ _ hres, and_127_eq_mod]
    have harith :
        result + c % 128 * 2 ^ shift + leb128_value (l₀' ++ [b]) * 2 ^ (shift + 7) =
          result + leb128_value ((c :: l₀') ++ [b]) * 2 ^ shift := by
      have h2 : (2 : Nat) ^ (shift + 7) = 2 ^ shift * 128 := by rw [pow_add]; norm_num
      rw [h2]
      show _ = result + leb128_value (c :: (l₀' ++ [b])) * 2 ^ shift
      rw [leb128_value]
      ring
    rw [harith]
    have hpos : p + 1 + (l₀'.length + 1) = p + ((c :: l₀').length + 1) := by
      simp only [List.length_cons]
      omega
    rw [hpos]

lemma read_leb128_go_continuation_step (data : List Nat) (p c : Nat) (rest : List Nat)
    (result shift fuel : Nat)
    (hdrop : data.drop p = c :: rest) (hc : c &&& 0x80 ≠ 0) (hlt : shift + 7 < 35) :
    read_leb128_go ⟨data, p⟩ result shift (fuel + 1) =
      read_leb128_go ⟨data, p + 1⟩ (result ||| ((c &&& 0x7f) <<< shift)) (shift + 7) fuel := by
  have hb : read_byte ⟨data, p⟩ = .ok (c, ⟨data, p + 1⟩) := by
    unfold read_byte
    rw [get?_of_drop p data c rest hdrop]
  rw [read_leb128_go, hb]
  dsimp only []
  rw [show (c &&& 0x80 == 0) = false from by simpa using hc]
  rw [if_neg (by simp)]
  rw [if_neg (by omega)]

lemma read_leb128_go_continuation_last (data : List Nat) (p c : Nat) (rest : List Nat)
    (result fuel : Nat) (hdrop : data.drop p = c :: rest) (hc : c &&& 0x80 ≠ 0) :
    read_leb128_go ⟨data, p⟩ result 28 fuel = .error (.generic "LEB128 sequence invalid") := by
  have hb : read_byte ⟨data, p⟩ = .ok (c, ⟨data, p + 1⟩) := by
    unfold read_byte
    rw [get?_of_drop p data c rest hdrop]
  rw [read_leb128_go, hb]
  dsimp only []
  rw [show (c &&& 0x80 == 0) = false from by simpa using hc]
  rw [if_neg (by simp)]
  rw [if_pos (by omega)]

lemma read_leb128_five_continuations (c0 c1 c2 c3 c4 : Nat) (rest data : List Nat) (p : Nat)
    (hdrop : data.drop p = c0 :: c1 :: c2 :: c3 :: c4 :: rest)
    (h0 : c0 &&& 0x80 ≠ 0) (h1 : c1 &&& 0x80 ≠ 0) (h2 : c2 &&& 0x80 ≠ 0)
    (h3 : c3 &&& 0x80 ≠ 0) (h4 : c4 &&& 0x80 ≠ 0) :
    read_leb128 ⟨data, p⟩ = .error (.generic "LEB128 sequence invalid") := by
  have d1 : data.drop (p + 1) = c1 :: c2 :: c3 :: c4 :: rest :=
    drop_succ_of_drop p data c0 _ hdrop
  have d2 : data.drop (p + 1 + 1) = c2 :: c3 :: c4 :: rest :=
    drop_succ_of_drop (p + 1) data c1 _ d1
  have d3 : data.drop (p + 1 + 1 + 1) = c3 :: c4 :: rest :=
    drop_succ_of_drop (p + 1 + 1) data c2 _ d2
  have d4 : data.drop (p + 1 + 1 + 1 + 1) = c4 :: rest :=
    drop_succ_of_drop (p + 1 + 1 + 1) data c3 _ d3
  have e1 : read_leb128_go ⟨data, p⟩ 0 0 5 =
      read_leb128_go ⟨data, p + 1⟩ (0 ||| ((c0 &&& 0x7f) <<< 0)) 7 4 :=
    read_leb128_go_continuation_step data p c0 _ 0 0 4 hdrop h0 (by omega)
  have e2 : read_leb128_go ⟨data, p + 1⟩ (0 ||| ((c0 &&& 0x7f) <<< 0)) 7 4 =
      read_leb128_go ⟨data, p + 1 + 1⟩
        ((0 ||| ((c0 &&& 0x7f) <<< 0)) ||| ((c1 &&& 0x7f) <<< 7)) 14 3 :=
    read_leb128_go_continuation_step data (p + 1) c1 _ _ 7 3 d1 h1 (by omega)
  have e3 : read_leb128_go ⟨data, p + 1 + 1⟩
        ((0 ||| ((c0 &&& 0x7f) <<< 0)) ||| ((c1 &&& 0x7f) <<< 7)) 14 3 =
      read_leb128_go ⟨data, p + 1 + 1 + 1⟩
        (((0 ||| ((c0 &&& 0x7f) <<< 0)) ||| ((c1 &&& 0x7f) <<< 7)) |||
          ((c2 &&& 0x7f) <<< 14)) 21 2 :=
    read_leb128_go_continuation_step data (p + 1 + 1) c2 _ _ 14 2 d2 h2 (by omega)
  have e4 : read_leb128_go ⟨data, p + 1 + 1 + 1⟩
        (((0 ||| ((c0 &&& 0x7f) <<< 0)) ||| ((c1 &&& 0x7f) <<< 7)) |||
          ((c2 &&& 0x7f) <<< 14)) 21 2 =
      read_leb128_go ⟨data, p + 1 + 1 + 1 + 1⟩
        ((((0 ||| ((c0 &&& 0x7f) <<< 0)) ||| ((c1 &&& 0x7f) <<< 7)) |||
          ((c2 &&& 0x7f) <<< 14)) ||| ((c3 &&& 0x7f) <<< 21)) 28 1 :=
    read_leb128_go_continuation_step data (p + 1 + 1 + 1) c3 _ _ 21 1 d3 h3 (by omega)
  unfold read_leb128
  rw [e1, e2, e3, e4]
  exact read_leb128_go_continuation_last data (p + 1 + 1 + 1 + 1) c4 _ _ 1 d4 h4

/-- Claim C5: for every 1-to-5-byte sequence whose final byte has the
high bit clear and whose earlier bytes all have it set, `read_leb128`
returns the standard unsigned-LEB128 decoding and consumes exactly those
bytes; and for every sequence whose first five bytes all carry the
continuation bit, it raises — but the raised exception is a bare Python
`Exception("LEB128 sequence invalid")` (`PyError.generic`), not the
`DexFormatException` that the spec's `FormatError` taxonomy names. -/
theorem C5_leb128_bounds (l₀ : List Nat) (b : Nat) (rest : List Nat)
    (c0 c1 c2 c3 c4 : Nat) (rest2 : List Nat)
    (hcont : ∀ c ∈ l₀, c &&& 0x80 ≠ 0) (hlast : b &&& 0x80 = 0) (hlen : l₀.length ≤ 4)
    (h0 : c0 &&& 0x80 ≠ 0) (h1 : c1 &&& 0x80 ≠ 0) (h2 : c2 &&& 0x80 ≠ 0)
    (h3 : c3 &&& 0x80 ≠ 0) (h4 : c4 &&& 0x80 ≠ 0) :
    read_leb128 ⟨(l₀ ++ [b]) ++ rest, 0⟩ =
      .ok (leb128_value (l₀ ++ [b]), ⟨(l₀ ++ [b]) ++ rest, l₀.length + 1⟩) ∧
    read_leb128 ⟨c0 :: c1 :: c2 :: c3 :: c4 :: rest2, 0⟩ =
      .error (.generic "LEB128 sequence invalid") := by
  constructor
  · have h := read_leb128_go_spec l₀ b rest ((l₀ ++ [b]) ++ rest) 0 0 0 5
      (by simp) hcont hlast (by norm_num) (by omega) (by omega)
    unfold read_leb128
    rw [h]
    norm_num
  · exact read_leb128_five_continuations c0 c1 c2 c3 c4 rest2 _ 0 (by simp) h0 h1 h2 h3 h4

/-- Witness for the C5 theorem: the spec's own example bytes
`E5 8E 26` decode to 624485, and five continuation bytes raise. -/
theorem C5_leb128_bounds_witness :
    (∀ c ∈ ([0xE5, 0x8E] : List Nat), c &&& 0x80 ≠ 0) ∧ (0x26 &&& 0x80 = 0) ∧
    ([0xE5, 0x8E] : List Nat).length ≤ 4 ∧ (0x80 &&& 0x80 ≠ 0) ∧
    read_leb128 ⟨([0xE5, 0x8E] ++ [0x26]) ++ [], 0⟩ =
      .ok (leb128_value ([0xE5, 0x8E] ++ [0x26]),
        ⟨([0xE5, 0x8E] ++ [0x26]) ++ [], ([0xE5, 0x8E] : List Nat).length + 1⟩) ∧
    read_leb128 ⟨0x80 :: 0x80 :: 0x80 :: 0x80 :: 0x80 :: [], 0⟩ =
      .error (.generic "LEB128 sequence invalid") ∧
    leb128_value ([0xE5, 0x8E] ++ [0x26]) = 624485 := by
  refine ⟨by decide, by decide, by decide, by decide, ?_, ?_, by decide⟩
  · exact (C5_leb128_bounds [0xE5, 0x8E] 0x26 [] 0x80 0x80 0x80 0x80 0x80 []
      (by decide) (by decide) (by decide) (by decide) (by decide) (by decide)
      (by decide) (by decide)).1
  · exact (C5_leb128_bounds [0xE5, 0x8E] 0x26 [] 0x80 0x80 0x80 0x80 0x80 []
      (by decide) (by decide) (by decide) (by decide) (by decide) (by decide)
      (by decide) (by decide)).2
